import Mathlib

/-!
ImajinAsset: the client-side data view layer of `frontend/script.js`

A shallow embedding of the filter / pagination pipeline and of the remote-call
wrapper of the asset-inventory dashboard, followed by theorems about them.

Conventions of the embedding

* The module-level variables `currentPage`, `itemsPerPage`, `assets`,
  `categories`, `locations` become the fields of `AppState`; every function of
  the script that reads or writes them becomes a function on `AppState`.
* The four filter controls of the page (`searchAsset`, `categoryFilter`,
  `locationFilter`, `statusFilter`) are read through `FilterInputs`; what the
  script writes into the page (table body, page-info text, the two pagination
  buttons) is recorded in `AssetsView`.
* JavaScript numbers that hold page numbers and indices are `Int` (they can
  become zero or negative); lengths and the page size are `Nat`.
* The loaders assign whatever value the remote call returned, so they run on
  `ScriptState`, whose three collections hold an arbitrary `JsonValue`; an
  `AppState` is the case where all three are arrays of records. What the page
  makes of the markup of a `select` control is the parameter `Dom`.
* `String.prototype.toLowerCase` is a parameter `toLowerCase` of the
  definitions that use it, so that nothing proved here depends on a
  particular case mapping; `asciiLowerCase` is one instance, used to evaluate
  concrete scenarios.
-/

namespace ImajinAsset

/-! ## JavaScript primitives used by the script -/

/-- A JavaScript string value. -/
abbrev JsString := String

/-- Substring search on character lists: `includesChars hay needle` holds when
`needle` occurs as a contiguous run somewhere in `hay`. -/
def includesChars : List Char → List Char → Bool
  | [], needle => needle.isEmpty
  | c :: cs, needle => needle.isPrefixOf (c :: cs) || includesChars cs needle

/-- The method `String.prototype.includes`: `includes s t` is `s.includes(t)`. -/
def includes (s t : JsString) : Bool :=
  includesChars s.data t.data

/-- The truthiness of a string: in a boolean context a string is `true` exactly when
it is not the empty string. -/
def truthy (s : JsString) : Bool :=
  !(s == "")

/-- An ASCII case mapping, one possible `toLowerCase`. -/
def asciiLowerCase (s : JsString) : JsString :=
  String.mk (s.data.map Char.toLower)

/-- The method `Array.prototype.slice(start, end)` with its handling of negative and
out-of-range indices: a negative index counts from the end and is floored at
`0`, a non-negative one is capped at the length, and the result is empty when
the resolved start is not below the resolved end. -/
def jsSlice {α : Type} (xs : List α) (start stop : Int) : List α :=
  let len : Int := xs.length
  let k : Int := if start < 0 then max (len + start) 0 else min start len
  let final : Int := if stop < 0 then max (len + stop) 0 else min stop len
  (xs.drop k.toNat).take (final - k).toNat

/-- The expression `Math.ceil(totalItems / itemsPerPage)` for a length
`totalItems` and a positive integer `itemsPerPage`: the least integer that is
at least the quotient. (For `itemsPerPage = 0` the script would compute
`Infinity` or `NaN`; the theorems below assume a positive page size.) -/
def mathCeilDiv (totalItems itemsPerPage : Nat) : Int :=
  ((totalItems + itemsPerPage - 1) / itemsPerPage : Nat)

/-! ## Data model -/

/-- An asset record, with the fields the filter reads. The script dereferences
`asset.name` and `asset.id` as strings without a guard, so these fields are
strings here. -/
structure Asset where
  id : JsString
  name : JsString
  category : JsString
  location : JsString
  status : JsString
deriving DecidableEq, Repr

/-- A category record. -/
structure Category where
  id : JsString
  name : JsString
  description : JsString
  assetCount : Nat
deriving DecidableEq, Repr

/-- A location record. -/
structure Location where
  id : JsString
  name : JsString
  address : JsString
  assetCount : Nat
deriving DecidableEq, Repr

/-- The values of the four filter controls of the page. -/
structure FilterInputs where
  searchAsset : JsString
  categoryFilter : JsString
  locationFilter : JsString
  statusFilter : JsString
deriving DecidableEq, Repr

/-- What `renderAssetsTable` and `updatePagination` write into the page: the rows of
the table body, the two numbers of the text `Page x of y`, and the `disabled`
flags of the two pagination buttons. -/
structure AssetsView where
  rows : List Asset
  pageInfoCurrent : Int
  pageInfoTotal : Int
  prevDisabled : Bool
  nextDisabled : Bool
deriving DecidableEq, Repr

/-- The module-level state of the script together with the part of the page it
reads (`inputs`) and writes (`view`). -/
structure AppState where
  currentPage : Int
  itemsPerPage : Nat
  assets : List Asset
  categories : List Category
  locations : List Location
  inputs : FilterInputs
  view : AssetsView
deriving DecidableEq, Repr

/-- The state right after the script is loaded: page 1, page size 10, empty
collections. -/
def initialState : AppState :=
  { currentPage := 1
    itemsPerPage := 10
    assets := []
    categories := []
    locations := []
    inputs := ⟨"", "", "", ""⟩
    view := ⟨[], 1, 0, true, false⟩ }

/-! ## Filtering -/

section Pipeline

variable (toLowerCase : JsString → JsString)

/-- The callback passed to `assets.filter` in `getFilteredAssets`, with
`searchTerm` already lower-cased by the caller. -/
def assetMatches (searchTerm categoryFilter locationFilter statusFilter : JsString)
    (asset : Asset) : Bool :=
  let matchesSearch :=
    includes (toLowerCase asset.name) searchTerm ||
    includes (toLowerCase asset.id) searchTerm
  let matchesCategory := !(truthy categoryFilter) || asset.category == categoryFilter
  let matchesLocation := !(truthy locationFilter) || asset.location == locationFilter
  let matchesStatus := !(truthy statusFilter) || asset.status == statusFilter
  matchesSearch && matchesCategory && matchesLocation && matchesStatus

/-- The function `getFilteredAssets` on explicit arguments: the asset collection
and the values of the four filter controls. -/
def filterWith (inputs : FilterInputs) (assets : List Asset) : List Asset :=
  let searchTerm := toLowerCase inputs.searchAsset
  let categoryFilter := inputs.categoryFilter
  let locationFilter := inputs.locationFilter
  let statusFilter := inputs.statusFilter
  assets.filter (assetMatches toLowerCase searchTerm categoryFilter locationFilter statusFilter)

/-- The function `getFilteredAssets`, reading the global `assets` and the filter
controls. -/
def getFilteredAssets (s : AppState) : List Asset :=
  filterWith toLowerCase s.inputs s.assets

/-! ## Pagination -/

/-- The function `updatePagination(totalItems)`: computes the page count and writes
the page-info text and the button flags. -/
def updatePagination (s : AppState) (totalItems : Nat) : AppState :=
  let totalPages := mathCeilDiv totalItems s.itemsPerPage
  { s with view :=
      { s.view with
        pageInfoCurrent := s.currentPage
        pageInfoTotal := totalPages
        prevDisabled := decide (s.currentPage = 1)
        nextDisabled := decide (s.currentPage = totalPages) } }

/-- The slice of the filtered collection that `renderAssetsTable` shows for a
given current page and page size. -/
def pageSlice (filteredAssets : List Asset) (currentPage : Int) (itemsPerPage : Nat) :
    List Asset :=
  let startIndex : Int := (currentPage - 1) * itemsPerPage
  let endIndex : Int := startIndex + itemsPerPage
  jsSlice filteredAssets startIndex endIndex

/-- The function `renderAssetsTable`: filters, slices the current page, writes one
row per asset of the slice and updates the pagination widgets. -/
def renderAssetsTable (s : AppState) : AppState :=
  let filteredAssets := getFilteredAssets toLowerCase s
  let pageAssets := pageSlice filteredAssets s.currentPage s.itemsPerPage
  let s1 := { s with view := { s.view with rows := pageAssets } }
  updatePagination s1 filteredAssets.length

/-- The function `filterAssets`, the handler of the four filter controls. -/
def filterAssets (s : AppState) : AppState :=
  renderAssetsTable toLowerCase { s with currentPage := 1 }

/-- The function `changePage(direction)`. -/
def changePage (s : AppState) (direction : Int) : AppState :=
  let filteredAssets := getFilteredAssets toLowerCase s
  let totalPages := mathCeilDiv filteredAssets.length s.itemsPerPage
  let p0 := s.currentPage + direction
  let p1 := if p0 < 1 then 1 else p0
  let p2 := if p1 > totalPages then totalPages else p1
  renderAssetsTable toLowerCase { s with currentPage := p2 }

/-- The page events wired in `setupEventListeners` that reach the filter and the
paginator. An input or change event carries the new value of its control. -/
inductive UiEvent where
  | searchInput (value : JsString)
  | categoryChange (value : JsString)
  | locationChange (value : JsString)
  | statusChange (value : JsString)
  | prevPageClick
  | nextPageClick
deriving DecidableEq, Repr

/-- The control value an event has changed by the time its handler runs. -/
def applyInput (inputs : FilterInputs) : UiEvent → FilterInputs
  | .searchInput v => { inputs with searchAsset := v }
  | .categoryChange v => { inputs with categoryFilter := v }
  | .locationChange v => { inputs with locationFilter := v }
  | .statusChange v => { inputs with statusFilter := v }
  | .prevPageClick => inputs
  | .nextPageClick => inputs

/-- The listeners registered by `setupEventListeners`: the four filter controls call
`filterAssets`, the two pagination buttons call `changePage(-1)` and
`changePage(1)`. -/
def dispatch (s : AppState) (e : UiEvent) : AppState :=
  let s1 := { s with inputs := applyInput s.inputs e }
  match e with
  | .searchInput _ => filterAssets toLowerCase s1
  | .categoryChange _ => filterAssets toLowerCase s1
  | .locationChange _ => filterAssets toLowerCase s1
  | .statusChange _ => filterAssets toLowerCase s1
  | .prevPageClick => changePage toLowerCase s1 (-1)
  | .nextPageClick => changePage toLowerCase s1 1

end Pipeline

/-! ## The remote-call wrapper -/

/-- A thrown JavaScript error, reduced to the `message` the script reads. -/
structure JsError where
  message : JsString
deriving DecidableEq, Repr

/-- The severity argument of `showToast`. -/
inductive Severity where
  | success
  | error
  | warning
deriving DecidableEq, Repr

/-- The observable side effects of `callAppsScript`, in the order they happen. -/
inductive Effect where
  | showLoading
  | hideLoading
  | consoleError (label : JsString) (message : JsString)
  | showToast (message : JsString) (severity : Severity)
deriving DecidableEq, Repr

/-- The response object `fetch` resolves to, with the two members the script
uses: the flag `ok` and the result of `response.json()`, which either yields
the parsed body or rejects. A JavaScript value is `none` for `null` and
`some v` otherwise. -/
structure Response (V : Type) where
  ok : Bool
  json : Except JsError (Option V)

/-- What one run of `callAppsScript` does: its effects and how it completes,
either by returning a value (`Except.ok`) or by letting an error escape
(`Except.error`). -/
structure CallRun (V : Type) where
  effects : List Effect
  completion : Except JsError (Option V)

/-- The `try` block of `callAppsScript`, given what `await fetch(...)` produced
(`Except.error` when the promise rejects). -/
def callAppsScriptTry {V : Type} (fetched : Except JsError (Response V)) :
    Except JsError (Option V) :=
  match fetched with
  | .error e => .error e
  | .ok response =>
    if !response.ok then
      .error ⟨"Network response was not ok"⟩
    else
      match response.json with
      | .error e => .error e
      | .ok data => .ok data

/-- The function `callAppsScript`: `showLoading()`, the `try` block, the `catch`
clause (log, toast, `return null`) and the `finally` clause
(`hideLoading()`). The helpers `showLoading`, `hideLoading` and `showToast`
only touch page elements and are taken not to throw. -/
def callAppsScript {V : Type} (fetched : Except JsError (Response V)) : CallRun V :=
  match callAppsScriptTry fetched with
  | .ok data =>
    { effects := [Effect.showLoading, Effect.hideLoading]
      completion := .ok data }
  | .error error =>
    { effects :=
        [Effect.showLoading,
         Effect.consoleError "Error calling Apps Script:" error.message,
         Effect.showToast ("Error: " ++ error.message) Severity.error,
         Effect.hideLoading]
      completion := .ok none }

/-- The four transport outcomes a call can meet. -/
inductive TransportOutcome (V : Type) where
  | networkFailure (error : JsError)
  | nonSuccessStatus (body : Except JsError (Option V))
  | unparsableBody (error : JsError)
  | parsedBody (v : Option V)

/-- What `await fetch(...)` produces under each transport outcome. -/
def TransportOutcome.fetched {V : Type} : TransportOutcome V → Except JsError (Response V)
  | .networkFailure e => .error e
  | .nonSuccessStatus body => .ok ⟨false, body⟩
  | .unparsableBody e => .ok ⟨true, .error e⟩
  | .parsedBody v => .ok ⟨true, .ok v⟩

/-- The notifications among a list of effects, as the severities shown. -/
def notifications : List Effect → List Severity
  | [] => []
  | Effect.showToast _ sev :: rest => sev :: notifications rest
  | _ :: rest => notifications rest

/-! ## The loaders -/

/-- A non-null value that `callAppsScript` can hand to a loader, as parsed from a
JSON body: a boolean, a number (by its value), a string, an array, or an
object that is not an array. An array is given by its records, which are
those of the data model, and an object by its fields. -/
inductive JsonValue (A : Type) where
  | bool (b : Bool)
  | number (x : ℚ)
  | string (s : JsString)
  | array (items : List A)
  | object (fields : List (JsString × JsString))
deriving DecidableEq

/-- The truthiness of a non-null value: `false`, `0` and the empty string are falsy,
every other value is truthy, arrays (the empty one included) and objects
among them. -/
def jsTruthy {A : Type} : JsonValue A → Bool
  | JsonValue.bool b => b
  | JsonValue.number x => decide (x ≠ 0)
  | JsonValue.string s => truthy s
  | JsonValue.array _ => true
  | JsonValue.object _ => true

/-- The module-level state of the script as the loaders see it: each of `assets`,
`categories`, `locations` holds whatever value was last assigned to it. -/
structure ScriptState where
  currentPage : Int
  itemsPerPage : Nat
  assets : JsonValue Asset
  categories : JsonValue Category
  locations : JsonValue Location
  inputs : FilterInputs
  view : AssetsView

/-- The state right after the script is loaded, with the three collections the empty
array. -/
def initialScriptState : ScriptState :=
  { currentPage := initialState.currentPage
    itemsPerPage := initialState.itemsPerPage
    assets := JsonValue.array initialState.assets
    categories := JsonValue.array initialState.categories
    locations := JsonValue.array initialState.locations
    inputs := initialState.inputs
    view := initialState.view }

/-- What the page does with the markup the script gives a `select` control.
`reparse m` is what reading `innerHTML` returns after `m` was assigned to it;
`initialValue m` is the value the control reports once its `innerHTML` is
`m`; `selectedValue m v` is the value it reports after `control.value = v`
was then assigned. -/
structure Dom where
  reparse : JsString → JsString
  initialValue : JsString → JsString
  selectedValue : JsString → JsString → JsString

/-- A simple page: markup reads back unchanged, a fresh control reports the empty
value of its first option, and an assigned value is kept when the markup
has an option of that value. -/
def plainDom : Dom :=
  { reparse := fun m => m
    initialValue := fun _ => ""
    selectedValue := fun m v => if includes m ("<option value=\"" ++ v ++ "\">") then v else "" }

/-- The markup of a filter control after the loop of `updateAssetFilters`: starting
from the "all" option, each name appends one option to what `innerHTML`
reads back. -/
def optionsMarkup (dom : Dom) (allOption : JsString) (names : List JsString) : JsString :=
  names.foldl
    (fun markup name =>
      dom.reparse markup ++ ("<option value=\"" ++ name ++ "\">" ++ name ++ "</option>"))
    allOption

section Loaders

variable (dom : Dom) (toLowerCase : JsString → JsString)

/-- The function `renderAssetsTable` on a `ScriptState`, with the error it throws,
if any. The table body is emptied first; when `assets` is an array the table
and the pagination widgets are written as `renderAssetsTable` does (it reads
neither `categories` nor `locations`); otherwise `assets.filter` is not a
function and a `TypeError` is thrown. -/
def renderAssetsTableOn (s : ScriptState) : ScriptState × Option JsError :=
  let cleared : AssetsView := { s.view with rows := [] }
  match s.assets with
  | JsonValue.array items =>
    let typed : AppState :=
      { currentPage := s.currentPage
        itemsPerPage := s.itemsPerPage
        assets := items
        categories := []
        locations := []
        inputs := s.inputs
        view := cleared }
    ({ s with view := (renderAssetsTable toLowerCase typed).view }, none)
  | _ => ({ s with view := cleared }, some ⟨"assets.filter is not a function"⟩)

/-- The function `updateAssetFilters` on a `ScriptState`, with the error it throws,
if any. Each control gets the "all" option, then one option per record of
its collection, then its former value; when the collection is not an array
`forEach` is not a function and a `TypeError` is thrown, the control being
left with the "all" option. -/
def updateAssetFiltersOn (s : ScriptState) : ScriptState × Option JsError :=
  let currentCategory := s.inputs.categoryFilter
  match s.categories with
  | JsonValue.array categories =>
    let categoryValue :=
      dom.selectedValue
        (optionsMarkup dom "<option value=\"\">All Categories</option>"
          (categories.map (fun category => category.name)))
        currentCategory
    let s1 := { s with inputs := { s.inputs with categoryFilter := categoryValue } }
    let currentLocation := s1.inputs.locationFilter
    match s1.locations with
    | JsonValue.array locations =>
      let locationValue :=
        dom.selectedValue
          (optionsMarkup dom "<option value=\"\">All Locations</option>"
            (locations.map (fun location => location.name)))
          currentLocation
      ({ s1 with inputs := { s1.inputs with locationFilter := locationValue } }, none)
    | _ =>
      ({ s1 with inputs :=
          { s1.inputs with
            locationFilter := dom.initialValue "<option value=\"\">All Locations</option>" } },
        some ⟨"locations.forEach is not a function"⟩)
  | _ =>
    ({ s with inputs :=
        { s.inputs with
          categoryFilter := dom.initialValue "<option value=\"\">All Categories</option>" } },
      some ⟨"categories.forEach is not a function"⟩)

/-- The function `loadAssets`, given what `fetch` produced for the call
`callAppsScript("getAssets")`: when the returned `data` is truthy it is
assigned to `assets`, then the table and the filter controls are refreshed;
an error thrown on the way is caught and logged. Otherwise nothing is
done. -/
def loadAssets (s : ScriptState)
    (fetched : Except JsError (Response (JsonValue Asset))) : ScriptState :=
  match (callAppsScript fetched).completion with
  | .error _ => s
  | .ok none => s
  | .ok (some data) =>
    if jsTruthy data then
      match renderAssetsTableOn toLowerCase { s with assets := data } with
      | (s1, some _) => s1
      | (s1, none) => (updateAssetFiltersOn dom s1).1
    else s

/-- The function `loadCategories`, given what `fetch` produced for the call
`callAppsScript("getCategories")`: when the returned `data` is truthy it is
assigned to `categories`; the categories table that is rendered next is not
part of the modelled view, and an error thrown there is caught and logged.
Otherwise nothing is done. -/
def loadCategories (s : ScriptState)
    (fetched : Except JsError (Response (JsonValue Category))) : ScriptState :=
  match (callAppsScript fetched).completion with
  | .error _ => s
  | .ok none => s
  | .ok (some data) => if jsTruthy data then { s with categories := data } else s

/-- The function `loadLocations`, given what `fetch` produced for the call
`callAppsScript("getLocations")`: when the returned `data` is truthy it is
assigned to `locations`; the locations table that is rendered next is not
part of the modelled view, and an error thrown there is caught and logged.
Otherwise nothing is done. -/
def loadLocations (s : ScriptState)
    (fetched : Except JsError (Response (JsonValue Location))) : ScriptState :=
  match (callAppsScript fetched).completion with
  | .error _ => s
  | .ok none => s
  | .ok (some data) => if jsTruthy data then { s with locations := data } else s

end Loaders

/-! ## Reference definitions, following the wording of the specification -/

/-- Case-insensitive substring test: `needle` occurs in `hay` once both are
lower-cased. -/
def containsIgnoringCase (toLowerCase : JsString → JsString) (hay needle : JsString) : Prop :=
  (toLowerCase needle).data <:+: (toLowerCase hay).data

instance (toLowerCase : JsString → JsString) (hay needle : JsString) :
    Decidable (containsIgnoringCase toLowerCase hay needle) := by
  unfold containsIgnoringCase; infer_instance

/-- The matching rule of the filter as the specification words it: all four
criteria must hold. -/
def specMatches (toLowerCase : JsString → JsString) (c : FilterInputs) (a : Asset) : Prop :=
  (c.searchAsset = "" ∨ containsIgnoringCase toLowerCase a.name c.searchAsset ∨
    containsIgnoringCase toLowerCase a.id c.searchAsset) ∧
  (c.categoryFilter = "" ∨ c.categoryFilter = a.category) ∧
  (c.locationFilter = "" ∨ c.locationFilter = a.location) ∧
  (c.statusFilter = "" ∨ c.statusFilter = a.status)

instance (toLowerCase : JsString → JsString) (c : FilterInputs) (a : Asset) :
    Decidable (specMatches toLowerCase c a) := by
  unfold specMatches; infer_instance

/-- The page count as the specification words it: the ceiling of the quotient, with
a floor of one page. -/
def specTotalPages (count pageSize : Nat) : Int :=
  max 1 ⌈(count : ℚ) / (pageSize : ℚ)⌉

/-- The frame condition of a filter change: afterwards the current page is 1 and the
three collections and the page size are those of the state before. -/
def resetsPageOnly (before after : AppState) : Prop :=
  after.currentPage = 1 ∧ after.assets = before.assets ∧
    after.categories = before.categories ∧ after.locations = before.locations ∧
    after.itemsPerPage = before.itemsPerPage

/-- The frame condition of a load that did not happen: the three collections and the
current page are those of the state before. -/
def recordsUntouched (before after : ScriptState) : Prop :=
  after.assets = before.assets ∧ after.categories = before.categories ∧
    after.locations = before.locations ∧ after.currentPage = before.currentPage

/-- Builds an asset with the given id and name and empty remaining fields. -/
def mkAsset (id name : JsString) : Asset :=
  ⟨id, name, "", "", ""⟩

/-- The asset with id `A<i>`, used to build collections of a given size. -/
def numberedAsset (i : Nat) : Asset :=
  mkAsset ("A" ++ toString i) ("Asset " ++ toString i)

/-! ## Auxiliary lemmas -/

theorem includesChars_iff_occurs (hay needle : List Char) :
    includesChars hay needle = true ↔ needle <:+: hay := by
  induction hay with
  | nil =>
    cases needle <;> simp [includesChars]
  | cons c cs ih =>
    simp only [includesChars, Bool.or_eq_true, ih, List.isPrefixOf_iff_prefix]
    rw [List.infix_cons_iff]

theorem includes_empty (s : JsString) : includes s "" = true := by
  unfold includes
  rw [includesChars_iff_occurs]
  exact List.nil_infix

theorem truthy_eq_false_iff (s : JsString) : (!(truthy s)) = true ↔ s = "" := by
  simp [truthy]

theorem criterion_iff (criterion field : JsString) :
    ((!(truthy criterion)) = true ∨ (field == criterion) = true) ↔
      (criterion = "" ∨ criterion = field) := by
  rw [truthy_eq_false_iff, beq_iff_eq]
  exact or_congr Iff.rfl eq_comm

theorem includes_iff_containsIgnoringCase (toLowerCase : JsString → JsString)
    (hay needle : JsString) :
    includes (toLowerCase hay) (toLowerCase needle) = true ↔
      containsIgnoringCase toLowerCase hay needle := by
  unfold includes containsIgnoringCase
  exact includesChars_iff_occurs _ _

theorem assetMatches_iff_specMatches (toLowerCase : JsString → JsString)
    (h0 : toLowerCase "" = "") (c : FilterInputs) (a : Asset) :
    assetMatches toLowerCase (toLowerCase c.searchAsset) c.categoryFilter c.locationFilter
        c.statusFilter a = true ↔ specMatches toLowerCase c a := by
  unfold assetMatches specMatches
  simp only [Bool.and_eq_true, criterion_iff, Bool.or_eq_true,
    includes_iff_containsIgnoringCase]
  constructor
  · rintro ⟨⟨⟨hs, hc⟩, hl⟩, ht⟩
    exact ⟨Or.inr hs, hc, hl, ht⟩
  · rintro ⟨hs, hc, hl, ht⟩
    refine ⟨⟨⟨?_, hc⟩, hl⟩, ht⟩
    rcases hs with hempty | hs
    · left
      rw [← includes_iff_containsIgnoringCase, hempty, h0]
      exact includes_empty _
    · exact hs

/-- The two bounds that make `mathCeilDiv n p` the ceiling of `n / p`. -/
theorem mathCeilDiv_bounds (n p : Nat) (hp : 0 < p) :
    n ≤ (n + p - 1) / p * p ∧ (n + p - 1) / p * p < n + p := by
  have h1 := Nat.div_add_mod (n + p - 1) p
  have h2 := Nat.mod_lt (n + p - 1) hp
  rw [Nat.mul_comm] at h1
  generalize (n + p - 1) / p * p = m at *
  generalize (n + p - 1) % p = r at *
  omega

theorem mathCeilDiv_eq_ceil (n p : Nat) (hp : 0 < p) :
    mathCeilDiv n p = ⌈(n : ℚ) / (p : ℚ)⌉ := by
  obtain ⟨h1, h2⟩ := mathCeilDiv_bounds n p hp
  have hp' : (0 : ℚ) < (p : ℚ) := by exact_mod_cast hp
  symm
  rw [Int.ceil_eq_iff]
  unfold mathCeilDiv
  generalize (n + p - 1) / p = k at h1 h2 ⊢
  have e1 : ((n : ℕ) : ℚ) ≤ (k : ℚ) * (p : ℚ) := by exact_mod_cast h1
  have e2 : (k : ℚ) * (p : ℚ) < (n : ℚ) + (p : ℚ) := by exact_mod_cast h2
  constructor
  · rw [lt_div_iff₀ hp']
    push_cast
    linarith
  · rw [div_le_iff₀ hp']
    push_cast
    linarith

theorem mathCeilDiv_zero (p : Nat) (hp : 0 < p) : mathCeilDiv 0 p = 0 := by
  unfold mathCeilDiv
  have : (0 + p - 1) / p = 0 := Nat.div_eq_of_lt (by omega)
  rw [this]; rfl

theorem mathCeilDiv_pos (n p : Nat) (hp : 0 < p) (hn : 0 < n) : 1 ≤ mathCeilDiv n p := by
  obtain ⟨h1, _⟩ := mathCeilDiv_bounds n p hp
  unfold mathCeilDiv
  have : 0 < (n + p - 1) / p := by
    rcases Nat.eq_zero_or_pos ((n + p - 1) / p) with h | h
    · rw [h] at h1; omega
    · exact h
  exact_mod_cast this

/-- On non-negative bounds `slice(a, a + b)` drops `a` elements and takes `b`. -/
theorem jsSlice_nat {α : Type} (xs : List α) (a b : Nat) :
    jsSlice xs (a : Int) ((a : Int) + (b : Int)) = (xs.drop a).take b := by
  unfold jsSlice
  have ha : ¬ ((a : Int) < 0) := by omega
  have hb : ¬ ((a : Int) + (b : Int) < 0) := by omega
  simp only [ha, hb, if_false]
  rcases Nat.lt_or_ge xs.length a with h | h
  · have hk : (min (a : Int) (xs.length : Int)).toNat = xs.length := by omega
    rw [hk, List.drop_eq_nil_of_le (Nat.le_refl _), List.drop_eq_nil_of_le (Nat.le_of_lt h)]
    simp
  · have hk : (min (a : Int) (xs.length : Int)).toNat = a := by omega
    rw [hk, List.take_eq_take, List.length_drop]
    omega

/-- For a page number `i + 1` the slice of `renderAssetsTable` is the `i`-th block of
`itemsPerPage` elements. -/
theorem pageSlice_succ (xs : List Asset) (i ps : Nat) :
    pageSlice xs ((i : Int) + 1) ps = (xs.drop (i * ps)).take ps := by
  unfold pageSlice
  have h : ((i : Int) + 1 - 1) * (ps : Int) = ((i * ps : Nat) : Int) := by
    push_cast; ring
  simp only [h]
  exact jsSlice_nat xs (i * ps) ps

/-- The first `k` blocks of size `ps`, concatenated, are the first `k * ps`
elements. -/
theorem flatMap_blocks {α : Type} (xs : List α) (ps k : Nat) :
    (List.range k).flatMap (fun i => (xs.drop (i * ps)).take ps) = xs.take (k * ps) := by
  induction k with
  | zero => simp
  | succ k ih =>
    rw [List.range_succ, List.flatMap_append, ih, Nat.succ_mul, List.take_add]
    simp

theorem pageSlice_nil (cp : Int) (ps : Nat) : pageSlice [] cp ps = [] := by
  simp [pageSlice, jsSlice]

/-- For a page number at least 1 the slice of `renderAssetsTable` is the block of
`itemsPerPage` elements that starts at index `(currentPage - 1) * itemsPerPage`. -/
theorem pageSlice_eq_drop_take (xs : List Asset) (cp : Int) (ps : Nat) (hcp : 1 ≤ cp) :
    pageSlice xs cp ps = (xs.drop ((cp - 1).toNat * ps)).take ps := by
  have h : cp = (((cp - 1).toNat : Nat) : Int) + 1 := by omega
  conv_lhs => rw [h]
  exact pageSlice_succ xs (cp - 1).toNat ps

/-- A non-empty filtered collection keeps the page set by `changePage` within
`1 .. totalPages`. -/
theorem changePage_in_range_of_nonempty (toLowerCase : JsString → JsString) (s : AppState)
    (direction : Int) (hps : 0 < s.itemsPerPage)
    (hne : getFilteredAssets toLowerCase s ≠ []) :
    1 ≤ (changePage toLowerCase s direction).currentPage ∧
      (changePage toLowerCase s direction).currentPage ≤
        (changePage toLowerCase s direction).view.pageInfoTotal := by
  have hlen : 0 < (getFilteredAssets toLowerCase s).length := List.length_pos.mpr hne
  have hpos := mathCeilDiv_pos _ _ hps hlen
  show 1 ≤ (if (if s.currentPage + direction < 1 then 1 else s.currentPage + direction) >
        mathCeilDiv (getFilteredAssets toLowerCase s).length s.itemsPerPage
      then mathCeilDiv (getFilteredAssets toLowerCase s).length s.itemsPerPage
      else (if s.currentPage + direction < 1 then 1 else s.currentPage + direction)) ∧
    (if (if s.currentPage + direction < 1 then 1 else s.currentPage + direction) >
        mathCeilDiv (getFilteredAssets toLowerCase s).length s.itemsPerPage
      then mathCeilDiv (getFilteredAssets toLowerCase s).length s.itemsPerPage
      else (if s.currentPage + direction < 1 then 1 else s.currentPage + direction)) ≤
      mathCeilDiv (getFilteredAssets toLowerCase s).length s.itemsPerPage
  generalize mathCeilDiv (getFilteredAssets toLowerCase s).length s.itemsPerPage = t at hpos ⊢
  split_ifs <;> omega

/-- On a non-empty filtered collection, starting from a page within
`1 .. totalPages`: a step of `changePage` to an existing page lands on it,
"next" on the last page and "previous" on page 1 leave the page as it is. -/
theorem changePage_step_of_nonempty (toLowerCase : JsString → JsString) (s : AppState)
    (hps : 0 < s.itemsPerPage) (hne : getFilteredAssets toLowerCase s ≠ []) :
    (∀ d : Int, 1 ≤ s.currentPage + d →
        s.currentPage + d ≤ mathCeilDiv (getFilteredAssets toLowerCase s).length s.itemsPerPage →
        (changePage toLowerCase s d).currentPage = s.currentPage + d) ∧
      (s.currentPage = mathCeilDiv (getFilteredAssets toLowerCase s).length s.itemsPerPage →
        (changePage toLowerCase s 1).currentPage = s.currentPage) ∧
      (s.currentPage = 1 → (changePage toLowerCase s (-1)).currentPage = 1) := by
  have hlen : 0 < (getFilteredAssets toLowerCase s).length := List.length_pos.mpr hne
  have hpos := mathCeilDiv_pos _ _ hps hlen
  have key : ∀ d : Int, (changePage toLowerCase s d).currentPage =
      (if (if s.currentPage + d < 1 then 1 else s.currentPage + d) >
          mathCeilDiv (getFilteredAssets toLowerCase s).length s.itemsPerPage
        then mathCeilDiv (getFilteredAssets toLowerCase s).length s.itemsPerPage
        else (if s.currentPage + d < 1 then 1 else s.currentPage + d)) := fun _ => rfl
  generalize mathCeilDiv (getFilteredAssets toLowerCase s).length s.itemsPerPage = t at hpos key ⊢
  refine ⟨?_, ?_, ?_⟩
  · intro d h1 h2
    rw [key]; split_ifs <;> omega
  · intro h
    rw [key]; split_ifs <;> omega
  · intro h
    rw [key]; split_ifs <;> omega

theorem jsTruthy_eq_false_iff {A : Type} (v : JsonValue A) :
    jsTruthy v = false ↔
      v = JsonValue.bool false ∨ v = JsonValue.number 0 ∨ v = JsonValue.string "" := by
  cases v with
  | bool b => cases b <;> simp [jsTruthy]
  | number x => simp [jsTruthy]
  | string t => simp [jsTruthy, truthy]
  | array items => simp [jsTruthy]
  | object fields => simp [jsTruthy]

theorem renderAssetsTableOn_frame (toLowerCase : JsString → JsString) (s : ScriptState) :
    recordsUntouched s (renderAssetsTableOn toLowerCase s).1 := by
  unfold renderAssetsTableOn
  split <;> exact ⟨rfl, rfl, rfl, rfl⟩

theorem updateAssetFiltersOn_frame (dom : Dom) (s : ScriptState) :
    recordsUntouched s (updateAssetFiltersOn dom s).1 := by
  obtain ⟨page, size, assets, categories, locations, inputs, view⟩ := s
  cases categories <;> cases locations <;> exact ⟨rfl, rfl, rfl, rfl⟩

theorem loadAssets_of_truthy (dom : Dom) (toLowerCase : JsString → JsString) (s : ScriptState)
    (fetched : Except JsError (Response (JsonValue Asset))) (v : JsonValue Asset)
    (h : (callAppsScript fetched).completion = Except.ok (some v)) (ht : jsTruthy v = true) :
    recordsUntouched { s with assets := v } (loadAssets dom toLowerCase s fetched) := by
  unfold loadAssets
  rw [h]
  simp only [ht, if_true]
  have hr := renderAssetsTableOn_frame toLowerCase { s with assets := v }
  generalize renderAssetsTableOn toLowerCase { s with assets := v } = r at hr
  obtain ⟨s1, e⟩ := r
  cases e with
  | some err => exact hr
  | none =>
    have hu := updateAssetFiltersOn_frame dom s1
    exact ⟨hu.1.trans hr.1, hu.2.1.trans hr.2.1, hu.2.2.1.trans hr.2.2.1,
      hu.2.2.2.trans hr.2.2.2⟩

theorem loadAssets_of_not_truthy (dom : Dom) (toLowerCase : JsString → JsString)
    (s : ScriptState) (fetched : Except JsError (Response (JsonValue Asset))) :
    ((callAppsScript fetched).completion = Except.ok none →
        loadAssets dom toLowerCase s fetched = s) ∧
      (∀ v, (callAppsScript fetched).completion = Except.ok (some v) → jsTruthy v = false →
        loadAssets dom toLowerCase s fetched = s) := by
  unfold loadAssets
  constructor
  · intro h; rw [h]
  · intro v h hf; rw [h]; simp only [hf, Bool.false_eq_true, if_false]

theorem loadCategories_cases (s : ScriptState)
    (fetched : Except JsError (Response (JsonValue Category))) :
    ((callAppsScript fetched).completion = Except.ok none → loadCategories s fetched = s) ∧
      (∀ v, (callAppsScript fetched).completion = Except.ok (some v) →
        (jsTruthy v = false → loadCategories s fetched = s) ∧
          (jsTruthy v = true → loadCategories s fetched = { s with categories := v })) := by
  unfold loadCategories
  constructor
  · intro h; rw [h]
  · intro v h
    rw [h]
    constructor
    · intro hf; simp only [hf, Bool.false_eq_true, if_false]
    · intro ht; simp only [ht, if_true]

theorem loadLocations_cases (s : ScriptState)
    (fetched : Except JsError (Response (JsonValue Location))) :
    ((callAppsScript fetched).completion = Except.ok none → loadLocations s fetched = s) ∧
      (∀ v, (callAppsScript fetched).completion = Except.ok (some v) →
        (jsTruthy v = false → loadLocations s fetched = s) ∧
          (jsTruthy v = true → loadLocations s fetched = { s with locations := v })) := by
  unfold loadLocations
  constructor
  · intro h; rw [h]
  · intro v h
    rw [h]
    constructor
    · intro hf; simp only [hf, Bool.false_eq_true, if_false]
    · intro ht; simp only [ht, if_true]

/-! ## Filtering: the matching rule, order preservation, idempotence -/

/-- C1: `getFilteredAssets` keeps an asset exactly when the four criteria of the
specification hold for it: the result is the asset collection filtered, in
order, by the rule "search term empty or contained, ignoring case, in the
name or in the id; and each of category, location, status empty or equal to
the asset's field". -/
theorem getFilteredAssets_keeps_exactly (toLowerCase : JsString → JsString)
    (h0 : toLowerCase "" = "") (s : AppState) :
    getFilteredAssets toLowerCase s =
        s.assets.filter (fun a => decide (specMatches toLowerCase s.inputs a)) ∧
      ∀ a, a ∈ getFilteredAssets toLowerCase s ↔
        a ∈ s.assets ∧ specMatches toLowerCase s.inputs a := by
  have hfilter : getFilteredAssets toLowerCase s =
      s.assets.filter (fun a => decide (specMatches toLowerCase s.inputs a)) := by
    unfold getFilteredAssets filterWith
    apply List.filter_congr
    intro a _
    rw [Bool.eq_iff_iff, assetMatches_iff_specMatches toLowerCase h0, decide_eq_true_iff]
  refine ⟨hfilter, fun a => ?_⟩
  rw [hfilter, List.mem_filter, decide_eq_true_iff]

/-- C1, the scenario of the specification: searching `desk` with the other criteria
empty over the assets `A1` "Standing Desk" and `A2` "Chair" yields exactly
`A1`. -/
theorem getFilteredAssets_keeps_exactly_witness :
    asciiLowerCase "" = "" ∧
      getFilteredAssets asciiLowerCase
          { initialState with
            inputs := ⟨"desk", "", "", ""⟩
            assets := [mkAsset "A1" "Standing Desk", mkAsset "A2" "Chair"] } =
        [mkAsset "A1" "Standing Desk"] ∧
      (∀ a, a ∈ getFilteredAssets asciiLowerCase
          { initialState with
            inputs := ⟨"desk", "", "", ""⟩
            assets := [mkAsset "A1" "Standing Desk", mkAsset "A2" "Chair"] } ↔
        a ∈ [mkAsset "A1" "Standing Desk", mkAsset "A2" "Chair"] ∧
          specMatches asciiLowerCase ⟨"desk", "", "", ""⟩ a) :=
  ⟨by decide, by decide,
    (getFilteredAssets_keeps_exactly asciiLowerCase (by decide)
      { initialState with
        inputs := ⟨"desk", "", "", ""⟩
        assets := [mkAsset "A1" "Standing Desk", mkAsset "A2" "Chair"] }).2⟩

/-- C5: the result of `getFilteredAssets` is a subsequence of the asset collection:
it arises by deleting elements, so the kept assets stand in their original
relative order, and every returned asset is an element of the collection. -/
theorem getFilteredAssets_sublist (toLowerCase : JsString → JsString) (s : AppState) :
    List.Sublist (getFilteredAssets toLowerCase s) s.assets ∧
      ∀ a, a ∈ getFilteredAssets toLowerCase s → a ∈ s.assets := by
  have hsub : List.Sublist (getFilteredAssets toLowerCase s) s.assets := by
    unfold getFilteredAssets filterWith
    exact List.filter_sublist _
  exact ⟨hsub, fun a ha => hsub.subset ha⟩

/-- C6: filtering is idempotent: running `getFilteredAssets` with the same
criteria on its own result returns that result. -/
theorem getFilteredAssets_idempotent (toLowerCase : JsString → JsString) (s : AppState) :
    getFilteredAssets toLowerCase
        { s with assets := getFilteredAssets toLowerCase s } =
      getFilteredAssets toLowerCase s := by
  unfold getFilteredAssets filterWith
  simp [List.filter_filter]

/-! ## Pagination -/

/-- C2, evaluated on an empty collection: from the initial state (no assets, page
1, page size 10) `changePage(1)` computes a page count of 0 and sets
`currentPage` to 0, which is below 1; a table rendered afterwards on page 0
shows no row even when an asset has been loaded meanwhile. -/
theorem changePage_empty_sets_page_zero :
    (changePage asciiLowerCase initialState 1).currentPage = 0 ∧
      (changePage asciiLowerCase initialState 1).view.pageInfoTotal = 0 ∧
      ¬ (1 ≤ (changePage asciiLowerCase initialState 1).currentPage ∧
          (changePage asciiLowerCase initialState 1).currentPage ≤
            (changePage asciiLowerCase initialState 1).view.pageInfoTotal) ∧
      (renderAssetsTable asciiLowerCase
          { changePage asciiLowerCase initialState 1 with
            assets := [mkAsset "A1" "Standing Desk"] }).view.rows = [] := by
  decide

/-- C3, evaluated on an empty collection: for the initial state (no assets, page
size 10) `updatePagination` computes a page count of 0, where the ceiling
with a floor of one page is 1; the page shows no rows under the text
"Page 1 of 0", and the Next button is left enabled. -/
theorem totalPages_empty_is_zero :
    getFilteredAssets asciiLowerCase initialState = [] ∧
      (renderAssetsTable asciiLowerCase initialState).view.pageInfoTotal = 0 ∧
      specTotalPages (getFilteredAssets asciiLowerCase initialState).length
          initialState.itemsPerPage = 1 ∧
      (renderAssetsTable asciiLowerCase initialState).view.pageInfoTotal ≠
        specTotalPages (getFilteredAssets asciiLowerCase initialState).length
          initialState.itemsPerPage ∧
      (renderAssetsTable asciiLowerCase initialState).view.rows = [] ∧
      (renderAssetsTable asciiLowerCase initialState).view.pageInfoCurrent = 1 ∧
      (renderAssetsTable asciiLowerCase initialState).view.nextDisabled = false := by
  have h1 : getFilteredAssets asciiLowerCase initialState = [] := by decide
  have h2 : (renderAssetsTable asciiLowerCase initialState).view.pageInfoTotal = 0 := by decide
  have h3 : specTotalPages (getFilteredAssets asciiLowerCase initialState).length
      initialState.itemsPerPage = 1 := by
    rw [h1]; simp [specTotalPages]
  refine ⟨h1, h2, h3, ?_, by decide, by decide, by decide⟩
  rw [h2, h3]; decide

/-- What the script computes as page count, for a positive page size: the value
that `updatePagination` writes and that `changePage` clamps against is the
plain ceiling of `count(filtered) / pageSize`. For a non-empty filtered
collection it is at least 1 and agrees with the ceiling floored at one page;
for an empty one it is 0 and the page has no items. -/
theorem totalPages_eq_ceil (toLowerCase : JsString → JsString) (s : AppState)
    (direction : Int) (hps : 0 < s.itemsPerPage) :
    (renderAssetsTable toLowerCase s).view.pageInfoTotal =
        ⌈((getFilteredAssets toLowerCase s).length : ℚ) / (s.itemsPerPage : ℚ)⌉ ∧
      (changePage toLowerCase s direction).currentPage =
        (if (if s.currentPage + direction < 1 then 1 else s.currentPage + direction) >
            ⌈((getFilteredAssets toLowerCase s).length : ℚ) / (s.itemsPerPage : ℚ)⌉
          then ⌈((getFilteredAssets toLowerCase s).length : ℚ) / (s.itemsPerPage : ℚ)⌉
          else (if s.currentPage + direction < 1 then 1 else s.currentPage + direction)) ∧
      (getFilteredAssets toLowerCase s = [] →
        (renderAssetsTable toLowerCase s).view.pageInfoTotal = 0 ∧
          (renderAssetsTable toLowerCase s).view.rows = []) ∧
      (getFilteredAssets toLowerCase s ≠ [] →
        1 ≤ (renderAssetsTable toLowerCase s).view.pageInfoTotal ∧
          (renderAssetsTable toLowerCase s).view.pageInfoTotal =
            specTotalPages (getFilteredAssets toLowerCase s).length s.itemsPerPage) := by
  have hceil := mathCeilDiv_eq_ceil (getFilteredAssets toLowerCase s).length s.itemsPerPage hps
  have htotal : (renderAssetsTable toLowerCase s).view.pageInfoTotal =
      mathCeilDiv (getFilteredAssets toLowerCase s).length s.itemsPerPage := rfl
  have hrows : (renderAssetsTable toLowerCase s).view.rows =
      pageSlice (getFilteredAssets toLowerCase s) s.currentPage s.itemsPerPage := rfl
  refine ⟨htotal.trans hceil, ?_, ?_, ?_⟩
  · rw [← hceil]; rfl
  · intro hnil
    rw [htotal, hrows, hnil]
    exact ⟨mathCeilDiv_zero _ hps, pageSlice_nil _ _⟩
  · intro hne
    have hpos := mathCeilDiv_pos _ _ hps (List.length_pos.mpr hne)
    rw [htotal]
    refine ⟨hpos, ?_⟩
    unfold specTotalPages
    rw [← hceil, max_eq_right hpos]

/-- The computed page count at an instance: 25 assets with page size 10. -/
theorem totalPages_eq_ceil_witness :
    0 < 10 ∧
      (renderAssetsTable asciiLowerCase
          { initialState with assets := (List.range 25).map numberedAsset }).view.pageInfoTotal =
        ⌈(((getFilteredAssets asciiLowerCase
          { initialState with assets := (List.range 25).map numberedAsset }).length : ℕ) : ℚ) /
            ((10 : ℕ) : ℚ)⌉ :=
  ⟨by decide,
    (totalPages_eq_ceil asciiLowerCase
      { initialState with assets := (List.range 25).map numberedAsset } 1 (by decide)).1⟩

/-- C4: for a positive page size, the rows that `renderAssetsTable` shows on pages
1, 2, ..., `totalPages` (the page count written by `updatePagination`),
concatenated in this order, are exactly the filtered collection. -/
theorem pages_concat_eq_filtered (toLowerCase : JsString → JsString) (s : AppState)
    (hps : 0 < s.itemsPerPage) :
    (List.range (renderAssetsTable toLowerCase s).view.pageInfoTotal.toNat).flatMap
        (fun i =>
          (renderAssetsTable toLowerCase { s with currentPage := (i : Int) + 1 }).view.rows) =
      getFilteredAssets toLowerCase s := by
  have htotal : (renderAssetsTable toLowerCase s).view.pageInfoTotal =
      mathCeilDiv (getFilteredAssets toLowerCase s).length s.itemsPerPage := rfl
  have hrows : ∀ i : Nat,
      (renderAssetsTable toLowerCase { s with currentPage := (i : Int) + 1 }).view.rows =
        pageSlice (getFilteredAssets toLowerCase s) ((i : Int) + 1) s.itemsPerPage :=
    fun _ => rfl
  simp only [htotal, hrows, pageSlice_succ]
  unfold mathCeilDiv
  rw [Int.toNat_ofNat, flatMap_blocks]
  exact List.take_of_length_le (mathCeilDiv_bounds _ _ hps).1

/-- C4 at an instance: 25 assets on pages of 10 are reassembled from the 3 pages. -/
theorem pages_concat_eq_filtered_witness :
    0 < 10 ∧
      (List.range (renderAssetsTable asciiLowerCase
          { initialState with
            assets := (List.range 25).map numberedAsset }).view.pageInfoTotal.toNat).flatMap
        (fun i =>
          (renderAssetsTable asciiLowerCase
            { { initialState with assets := (List.range 25).map numberedAsset } with
              currentPage := (i : Int) + 1 }).view.rows) =
      getFilteredAssets asciiLowerCase
        { initialState with assets := (List.range 25).map numberedAsset } :=
  ⟨by decide,
    pages_concat_eq_filtered asciiLowerCase
      { initialState with assets := (List.range 25).map numberedAsset } (by decide)⟩

/-- C7: for a current page of at least 1 (and any page size, positive ones
included), the rows that `renderAssetsTable` shows are the contiguous run of
the filtered collection that starts at index `(currentPage - 1) * pageSize`
and stops before `currentPage * pageSize` or at the end of the collection,
whichever comes first: row `j` is element `(currentPage - 1) * pageSize + j`,
and there are `min pageSize (count - start)` rows, so at most `pageSize`. -/
theorem renderAssetsTable_rows_contiguous (toLowerCase : JsString → JsString) (s : AppState)
    (hcp : 1 ≤ s.currentPage) :
    (renderAssetsTable toLowerCase s).view.rows =
        ((getFilteredAssets toLowerCase s).drop
          ((s.currentPage - 1).toNat * s.itemsPerPage)).take s.itemsPerPage ∧
      (renderAssetsTable toLowerCase s).view.rows.length =
        min s.itemsPerPage
          ((getFilteredAssets toLowerCase s).length -
            (s.currentPage - 1).toNat * s.itemsPerPage) ∧
      (renderAssetsTable toLowerCase s).view.rows.length ≤ s.itemsPerPage ∧
      (∀ j : Nat, j < (renderAssetsTable toLowerCase s).view.rows.length →
        (renderAssetsTable toLowerCase s).view.rows[j]? =
          (getFilteredAssets toLowerCase s)[(s.currentPage - 1).toNat * s.itemsPerPage + j]?) ∧
      (∀ j : Nat, (renderAssetsTable toLowerCase s).view.rows.length ≤ j →
        (renderAssetsTable toLowerCase s).view.rows[j]? = none) := by
  have hrows : (renderAssetsTable toLowerCase s).view.rows =
      ((getFilteredAssets toLowerCase s).drop
        ((s.currentPage - 1).toNat * s.itemsPerPage)).take s.itemsPerPage :=
    pageSlice_eq_drop_take _ _ _ hcp
  rw [hrows]
  refine ⟨rfl, ?_, ?_, ?_, ?_⟩
  · rw [List.length_take, List.length_drop]
  · rw [List.length_take]; exact Nat.min_le_left _ _
  · intro j hj
    rw [List.length_take] at hj
    rw [List.getElem?_take, if_pos (lt_of_lt_of_le hj (Nat.min_le_left _ _)),
      List.getElem?_drop]
  · intro j hj
    exact List.getElem?_eq_none hj

/-- C7, the scenario of the specification: 25 assets, page size 10, page 3 show the
5 assets at indices 20 to 24, and the page count is 3. -/
theorem renderAssetsTable_rows_contiguous_witness :
    (1 : Int) ≤ 3 ∧
      (renderAssetsTable asciiLowerCase
          { initialState with
            currentPage := 3
            assets := (List.range 25).map numberedAsset }).view.rows =
        ((getFilteredAssets asciiLowerCase
          { initialState with
            currentPage := 3
            assets := (List.range 25).map numberedAsset }).drop 20).take 10 ∧
      (renderAssetsTable asciiLowerCase
          { initialState with
            currentPage := 3
            assets := (List.range 25).map numberedAsset }).view.rows =
        [numberedAsset 20, numberedAsset 21, numberedAsset 22, numberedAsset 23,
          numberedAsset 24] ∧
      (renderAssetsTable asciiLowerCase
          { initialState with
            currentPage := 3
            assets := (List.range 25).map numberedAsset }).view.pageInfoTotal = 3 :=
  ⟨by decide,
    (renderAssetsTable_rows_contiguous asciiLowerCase
      { initialState with
        currentPage := 3
        assets := (List.range 25).map numberedAsset } (by decide)).1,
    by decide, by decide⟩

/-- C8, evaluated on an empty collection: from the initial state (no assets, page
1, page size 10) a "previous" request, `changePage(-1)`, sets `currentPage`
to 0 instead of leaving it at 1, and so does a "next" request,
`changePage(1)`, although page 1 is the only page of the empty view. -/
theorem changePage_empty_moves_off_page_one :
    initialState.currentPage = 1 ∧
      getFilteredAssets asciiLowerCase initialState = [] ∧
      (changePage asciiLowerCase initialState (-1)).currentPage = 0 ∧
      (dispatch asciiLowerCase initialState UiEvent.prevPageClick).currentPage = 0 ∧
      (dispatch asciiLowerCase initialState UiEvent.nextPageClick).currentPage = 0 ∧
      (renderAssetsTable asciiLowerCase initialState).view.nextDisabled = false := by
  decide

/-- C9: whatever the state before, `filterAssets` sets `currentPage` to 1 and then
renders the table from that state (the page shown is page 1 of the filtered
collection), leaving `assets`, `categories`, `locations` and `itemsPerPage`
as they were; the handlers of the search, category, location and status
controls all do so. -/
theorem filterAssets_resets_page (toLowerCase : JsString → JsString) (s : AppState) :
    resetsPageOnly s (filterAssets toLowerCase s) ∧
      filterAssets toLowerCase s = renderAssetsTable toLowerCase { s with currentPage := 1 } ∧
      (filterAssets toLowerCase s).view.pageInfoCurrent = 1 ∧
      (filterAssets toLowerCase s).view.rows =
        pageSlice (getFilteredAssets toLowerCase s) 1 s.itemsPerPage ∧
      (∀ v, resetsPageOnly s (dispatch toLowerCase s (UiEvent.searchInput v))) ∧
      (∀ v, resetsPageOnly s (dispatch toLowerCase s (UiEvent.categoryChange v))) ∧
      (∀ v, resetsPageOnly s (dispatch toLowerCase s (UiEvent.locationChange v))) ∧
      (∀ v, resetsPageOnly s (dispatch toLowerCase s (UiEvent.statusChange v))) := by
  refine ⟨⟨rfl, rfl, rfl, rfl, rfl⟩, rfl, rfl, rfl, ?_, ?_, ?_, ?_⟩ <;>
    exact fun _ => ⟨rfl, rfl, rfl, rfl, rfl⟩

/-! ## The remote-call wrapper -/

/-- C10: under a network failure, a non-success status or an unparsable body
`callAppsScript` returns `null` and shows exactly one notification, of
severity `error`; under a success status with parsed body `v` it returns `v`
and shows no notification; under no outcome does an error escape. -/
theorem callAppsScript_outcomes {V : Type} :
    (∀ e : JsError,
      (callAppsScript (TransportOutcome.networkFailure e : TransportOutcome V).fetched).completion =
          Except.ok none ∧
        notifications
            (callAppsScript (TransportOutcome.networkFailure e : TransportOutcome V).fetched).effects =
          [Severity.error]) ∧
      (∀ body : Except JsError (Option V),
        (callAppsScript (TransportOutcome.nonSuccessStatus body).fetched).completion =
            Except.ok none ∧
          notifications (callAppsScript (TransportOutcome.nonSuccessStatus body).fetched).effects =
            [Severity.error]) ∧
      (∀ e : JsError,
        (callAppsScript (TransportOutcome.unparsableBody e : TransportOutcome V).fetched).completion =
            Except.ok none ∧
          notifications
              (callAppsScript (TransportOutcome.unparsableBody e : TransportOutcome V).fetched).effects =
            [Severity.error]) ∧
      (∀ v : Option V,
        (callAppsScript (TransportOutcome.parsedBody v).fetched).completion = Except.ok v ∧
          notifications (callAppsScript (TransportOutcome.parsedBody v).fetched).effects = []) ∧
      (∀ outcome : TransportOutcome V,
        ∃ result, (callAppsScript outcome.fetched).completion = Except.ok result) ∧
      (∀ fetched : Except JsError (Response V),
        ∃ result, (callAppsScript fetched).completion = Except.ok result) := by
  have hall : ∀ fetched : Except JsError (Response V),
      ∃ result, (callAppsScript fetched).completion = Except.ok result := by
    intro fetched
    unfold callAppsScript
    cases callAppsScriptTry fetched <;> exact ⟨_, rfl⟩
  exact ⟨fun _ => ⟨rfl, rfl⟩, fun _ => ⟨rfl, rfl⟩, fun _ => ⟨rfl, rfl⟩, fun _ => ⟨rfl, rfl⟩,
    fun outcome => hall outcome.fetched, hall⟩

/-! ## The loaders -/

/-- C11, the claim as stated fails: when the remote call answers `getAssets` with
the body `false`, `callAppsScript` returns that non-null value, yet
`loadAssets` leaves `assets` holding the array it held before and not the
result. -/
theorem loadAssets_keeps_assets_on_false :
    (callAppsScript
        (TransportOutcome.parsedBody (some (JsonValue.bool false : JsonValue Asset))).fetched).completion =
        Except.ok (some (JsonValue.bool false)) ∧
      (loadAssets plainDom asciiLowerCase
          { initialScriptState with assets := JsonValue.array [mkAsset "A2" "Chair"] }
          (TransportOutcome.parsedBody (some (JsonValue.bool false))).fetched).assets =
        JsonValue.array [mkAsset "A2" "Chair"] ∧
      (loadAssets plainDom asciiLowerCase
          { initialScriptState with assets := JsonValue.array [mkAsset "A2" "Chair"] }
          (TransportOutcome.parsedBody (some (JsonValue.bool false))).fetched).assets ≠
        JsonValue.bool false ∧
      ¬ (∀ (s : ScriptState) (fetched : Except JsError (Response (JsonValue Asset)))
          (v : JsonValue Asset),
          (callAppsScript fetched).completion = Except.ok (some v) →
            (loadAssets plainDom asciiLowerCase s fetched).assets = v) := by
  have hkept : (loadAssets plainDom asciiLowerCase
      { initialScriptState with assets := JsonValue.array [mkAsset "A2" "Chair"] }
      (TransportOutcome.parsedBody (some (JsonValue.bool false))).fetched).assets =
      JsonValue.array [mkAsset "A2" "Chair"] := rfl
  refine ⟨rfl, hkept, ?_, ?_⟩
  · rw [hkept]
    exact fun h => JsonValue.noConfusion h
  · intro hall
    have h := hall
      { initialScriptState with assets := JsonValue.array [mkAsset "A2" "Chair"] }
      (TransportOutcome.parsedBody (some (JsonValue.bool false))).fetched
      (JsonValue.bool false) rfl
    rw [hkept] at h
    exact JsonValue.noConfusion h

/-- C11, amended: for each of `loadAssets`, `loadCategories`, `loadLocations` and
every state before: when the remote call returns `null`, or a falsy value
(`false`, `0` or the empty string, and no other), the three collections and
`currentPage` are left as they were, the whole state in fact; when it
returns a truthy result, such as `true`, a non-empty string, an object or
any array, the loader's own collection becomes exactly that result and the
other two collections and `currentPage` are unchanged. -/
theorem loaders_store_truthy_result (dom : Dom) (toLowerCase : JsString → JsString)
    (s : ScriptState) :
    (∀ fetched,
      ((callAppsScript fetched).completion = Except.ok none →
          loadAssets dom toLowerCase s fetched = s ∧
            recordsUntouched s (loadAssets dom toLowerCase s fetched)) ∧
        (∀ v, (callAppsScript fetched).completion = Except.ok (some v) →
          (jsTruthy v = false →
              loadAssets dom toLowerCase s fetched = s ∧
                recordsUntouched s (loadAssets dom toLowerCase s fetched)) ∧
            (jsTruthy v = true →
              (loadAssets dom toLowerCase s fetched).assets = v ∧
                (loadAssets dom toLowerCase s fetched).categories = s.categories ∧
                (loadAssets dom toLowerCase s fetched).locations = s.locations ∧
                (loadAssets dom toLowerCase s fetched).currentPage = s.currentPage))) ∧
      (∀ fetched,
        ((callAppsScript fetched).completion = Except.ok none →
            loadCategories s fetched = s ∧ recordsUntouched s (loadCategories s fetched)) ∧
          (∀ v, (callAppsScript fetched).completion = Except.ok (some v) →
            (jsTruthy v = false →
                loadCategories s fetched = s ∧
                  recordsUntouched s (loadCategories s fetched)) ∧
              (jsTruthy v = true →
                (loadCategories s fetched).categories = v ∧
                  (loadCategories s fetched).assets = s.assets ∧
                  (loadCategories s fetched).locations = s.locations ∧
                  (loadCategories s fetched).currentPage = s.currentPage))) ∧
      (∀ fetched,
        ((callAppsScript fetched).completion = Except.ok none →
            loadLocations s fetched = s ∧ recordsUntouched s (loadLocations s fetched)) ∧
          (∀ v, (callAppsScript fetched).completion = Except.ok (some v) →
            (jsTruthy v = false →
                loadLocations s fetched = s ∧
                  recordsUntouched s (loadLocations s fetched)) ∧
              (jsTruthy v = true →
                (loadLocations s fetched).locations = v ∧
                  (loadLocations s fetched).assets = s.assets ∧
                  (loadLocations s fetched).categories = s.categories ∧
                  (loadLocations s fetched).currentPage = s.currentPage))) ∧
      (∀ v : JsonValue Asset, jsTruthy v = false ↔
        v = JsonValue.bool false ∨ v = JsonValue.number 0 ∨ v = JsonValue.string "") ∧
      (∀ v : JsonValue Category, jsTruthy v = false ↔
        v = JsonValue.bool false ∨ v = JsonValue.number 0 ∨ v = JsonValue.string "") ∧
      (∀ v : JsonValue Location, jsTruthy v = false ↔
        v = JsonValue.bool false ∨ v = JsonValue.number 0 ∨ v = JsonValue.string "") := by
  have same : ∀ t : ScriptState, t = s → t = s ∧ recordsUntouched s t := by
    intro t ht
    subst ht
    exact ⟨rfl, rfl, rfl, rfl, rfl⟩
  refine ⟨?_, ?_, ?_, jsTruthy_eq_false_iff, jsTruthy_eq_false_iff, jsTruthy_eq_false_iff⟩
  · intro fetched
    obtain ⟨hnull, hfalsy⟩ := loadAssets_of_not_truthy dom toLowerCase s fetched
    refine ⟨fun h => same _ (hnull h), fun v h => ⟨fun hf => same _ (hfalsy v h hf), ?_⟩⟩
    intro ht
    exact loadAssets_of_truthy dom toLowerCase s fetched v h ht
  · intro fetched
    obtain ⟨hnull, hsome⟩ := loadCategories_cases s fetched
    refine ⟨fun h => same _ (hnull h), fun v h => ⟨fun hf => same _ ((hsome v h).1 hf), ?_⟩⟩
    intro ht
    rw [(hsome v h).2 ht]
    exact ⟨rfl, rfl, rfl, rfl⟩
  · intro fetched
    obtain ⟨hnull, hsome⟩ := loadLocations_cases s fetched
    refine ⟨fun h => same _ (hnull h), fun v h => ⟨fun hf => same _ ((hsome v h).1 hf), ?_⟩⟩
    intro ht
    rw [(hsome v h).2 ht]
    exact ⟨rfl, rfl, rfl, rfl⟩

/-- C11, amended, at instances: from a state whose `assets` is the array of the
asset `A2`, an HTTP 500 answer leaves the records untouched; a successful
answer carrying the array of the asset `A1` makes `assets` that array; and a
successful answer carrying `true`, truthy yet no array, makes `assets` the
value `true`. -/
theorem loaders_store_truthy_result_witness :
    recordsUntouched { initialScriptState with assets := JsonValue.array [mkAsset "A2" "Chair"] }
        (loadAssets plainDom asciiLowerCase
          { initialScriptState with assets := JsonValue.array [mkAsset "A2" "Chair"] }
          (TransportOutcome.nonSuccessStatus (Except.ok none)).fetched) ∧
      (loadAssets plainDom asciiLowerCase
          { initialScriptState with assets := JsonValue.array [mkAsset "A2" "Chair"] }
          (TransportOutcome.parsedBody
            (some (JsonValue.array [mkAsset "A1" "Standing Desk"]))).fetched).assets =
        JsonValue.array [mkAsset "A1" "Standing Desk"] ∧
      (loadAssets plainDom asciiLowerCase
          { initialScriptState with assets := JsonValue.array [mkAsset "A2" "Chair"] }
          (TransportOutcome.parsedBody (some (JsonValue.bool true))).fetched).assets =
        JsonValue.bool true :=
  ⟨(((loaders_store_truthy_result plainDom asciiLowerCase
        { initialScriptState with assets := JsonValue.array [mkAsset "A2" "Chair"] }).1
      (TransportOutcome.nonSuccessStatus (Except.ok none)).fetched).1 rfl).2,
    ((((loaders_store_truthy_result plainDom asciiLowerCase
        { initialScriptState with assets := JsonValue.array [mkAsset "A2" "Chair"] }).1
      (TransportOutcome.parsedBody
        (some (JsonValue.array [mkAsset "A1" "Standing Desk"]))).fetched).2
      (JsonValue.array [mkAsset "A1" "Standing Desk"]) rfl).2 rfl).1,
    ((((loaders_store_truthy_result plainDom asciiLowerCase
        { initialScriptState with assets := JsonValue.array [mkAsset "A2" "Chair"] }).1
      (TransportOutcome.parsedBody (some (JsonValue.bool true))).fetched).2
      (JsonValue.bool true) rfl).2 rfl).1⟩

end ImajinAsset
